import Mathlib

/-!
Verification of the PetGPT MCP core (JSON-RPC client / connection manager).

This file gives a shallow embedding, in Lean 4, of the MCP subsystem of the
PetGPT repository:

* `src/src-tauri/src/mcp/types.rs` — the JSON-RPC message model and the
  serde deserializers for the envelope types (modelled here as total
  functions from an abstract JSON value type);
* `src/src-tauri/src/mcp/client.rs` — the stdio transport client: the
  stdout-reader line dispatch (lines 211-347), the sampling bridge error
  path (`send_jsonrpc_error_sync`, lines 707-727), the request correlator
  (pending-request table, `send_request_with_timeout`, `cancel`,
  `disconnect`), and the entry checks of `call_tool` / `read_resource`;
* `src/src-tauri/src/mcp/http_client.rs` — the SSE (server-sent events)
  parsing machinery of the streamable HTTP transport
  (`parse_sse_response`, `parse_sse_event_full`, lines 112-276);
* `src/frontend/src-tauri/src/mcp/manager.rs` — the connection manager
  (`start_server`, `get_server_status`, `call_tool`).

Conventions of the embedding:

* JSON values are the inductive `Json` below; numbers are modelled as
  integers (the only numeric fields the protocol code inspects are request
  ids (`u64`) and error codes (`i32`), which serde rejects outside their
  ranges — the range checks are modelled explicitly).  JSON objects are
  assumed duplicate-key-free, which serde enforces when deserializing.
* Rust `Result<T, String>` becomes `Except String T`; `Option` becomes
  `Option`.
* Mutable state is explicit: the relevant fields of `McpClient` are
  gathered into `ClientState`, and each state-updating operation becomes a
  pure function from the old state (plus the outcomes of the I/O it
  performs, passed as arguments) to the new state and its observable
  outputs.
-/

mutual

/-- Abstract JSON values (the shallow embedding of `serde_json::Value`).
Numbers are integers: the MCP code only inspects numeric fields that are
ids (`u64`) and error codes (`i32`).  Arrays and objects are given by the
companion types `JsonArr` and `JsonObj` (a mutual inductive, so that
decidable equality can be derived). -/
inductive Json where
  | null : Json
  | bool (b : Bool) : Json
  | num (n : Int) : Json
  | str (s : String) : Json
  | arr (elems : JsonArr) : Json
  | obj (fields : JsonObj) : Json
deriving DecidableEq

/-- A JSON array: a list of `Json` values. -/
inductive JsonArr where
  | nil : JsonArr
  | cons (hd : Json) (tl : JsonArr) : JsonArr
deriving DecidableEq

/-- A JSON object: an association list of string keys and `Json` values. -/
inductive JsonObj where
  | nil : JsonObj
  | cons (key : String) (val : Json) (tl : JsonObj) : JsonObj
deriving DecidableEq

end

/-- Field lookup in a JSON object (first match; objects are assumed
duplicate-key-free, as serde enforces when deserializing). -/
def lookupField : JsonObj → String → Option Json
  | .nil, _ => none
  | .cons k v fs, key => if k = key then some v else lookupField fs key

/-- Field access on a JSON value: `none` unless the value is an object
containing the key. -/
def Json.getField : Json → String → Option Json
  | .obj fs, k => lookupField fs k
  | _, _ => none

/-- String-typed field access: the field must exist and hold a JSON string
(serde fails a `String` struct field on any other shape). -/
def Json.getStrField (j : Json) (k : String) : Option String :=
  match j.getField k with
  | some (.str s) => some s
  | _ => none

/-- Serde deserializes an `Option<serde_json::Value>` struct field to `None`
both when the field is absent and when it is explicitly `null`. -/
def optNonNull : Option Json → Option Json
  | some Json.null => none
  | o => o

/-- A JSON number deserializes to `u64` exactly when it is an integer in
`[0, 2^64)` (types.rs line 47: `JsonRpcResponse.id: u64`). -/
def parseU64 (j : Json) : Option Nat :=
  match j with
  | .num n => if 0 ≤ n ∧ n < 2 ^ 64 then some n.toNat else none
  | _ => none

/-- Incoming server→client JSON-RPC request (types.rs lines 325-332,
`JsonRpcIncomingRequest`): `id` may be any JSON value. -/
structure JsonRpcIncomingRequest where
  jsonrpc : String
  id : Json
  method : String
  params : Option Json
deriving DecidableEq

/-- JSON-RPC error object (types.rs lines 54-60): `code: i32`,
`message: String`, optional `data`. -/
structure JsonRpcError where
  code : Int
  message : String
  data : Option Json
deriving DecidableEq

/-- JSON-RPC response (types.rs lines 44-52): `id: u64`, optional `result`
and `error`. -/
structure JsonRpcResponse where
  jsonrpc : String
  id : Nat
  result : Option Json
  error : Option JsonRpcError
deriving DecidableEq

/-- JSON-RPC notification (types.rs lines 36-42). -/
structure JsonRpcNotification where
  jsonrpc : String
  method : String
  params : Option Json
deriving DecidableEq

/-- Deserialization of `JsonRpcIncomingRequest` from a JSON value
(`serde_json::from_str::<JsonRpcIncomingRequest>` at client.rs line 223):
requires string fields `jsonrpc` and `method` and a present `id` of any
shape; `params` defaults to `None` when absent or `null`. -/
def parseIncomingRequest (j : Json) : Option JsonRpcIncomingRequest :=
  match j.getStrField "jsonrpc", j.getField "id", j.getStrField "method" with
  | some jr, some idv, some m => some ⟨jr, idv, m, optNonNull (j.getField "params")⟩
  | _, _, _ => none

/-- Deserialization of `JsonRpcError`: `code` must be an integer in `i32`
range, `message` a string; `data` optional. -/
def parseJsonRpcError (j : Json) : Option JsonRpcError :=
  match j.getField "code", j.getStrField "message" with
  | some (.num c), some m =>
      if -(2 ^ 31) ≤ c ∧ c < 2 ^ 31 then some ⟨c, m, optNonNull (j.getField "data")⟩ else none
  | _, _ => none

/-- Deserialization of `JsonRpcResponse` (`serde_json::from_str::<JsonRpcResponse>`
at client.rs line 282): `jsonrpc` string, `id` a `u64`; `result` and `error`
are optional (absent or `null` give `None`); a present non-null `error`
must itself deserialize as a `JsonRpcError` or the whole parse fails. -/
def parseResponse (j : Json) : Option JsonRpcResponse :=
  match j.getStrField "jsonrpc", (j.getField "id").bind parseU64 with
  | some jr, some idn =>
      match j.getField "error" with
      | none => some ⟨jr, idn, optNonNull (j.getField "result"), none⟩
      | some Json.null => some ⟨jr, idn, optNonNull (j.getField "result"), none⟩
      | some ev => (parseJsonRpcError ev).map fun er =>
          ⟨jr, idn, optNonNull (j.getField "result"), some er⟩
  | _, _ => none

/-- Deserialization of `JsonRpcNotification` (client.rs line 299). -/
def parseNotification (j : Json) : Option JsonRpcNotification :=
  match j.getStrField "jsonrpc", j.getStrField "method" with
  | some jr, some m => some ⟨jr, m, optNonNull (j.getField "params")⟩
  | _, _ => none

/-- Tool descriptor (types.rs lines 158-165). -/
structure McpTool where
  name : String
  description : Option String
  inputSchema : Option Json
deriving DecidableEq

/-- Resource descriptor (types.rs lines 203-211). -/
structure McpResource where
  uri : String
  name : String
  description : Option String
  mimeType : Option String
deriving DecidableEq

/-- Server info captured during the handshake (types.rs lines 147-152). -/
structure ServerInfo where
  name : String
  version : Option String
deriving DecidableEq

/-- LLM credentials injected for answering sampling requests
(types.rs lines 264-273). -/
structure SamplingLlmConfig where
  apiKey : String
  model : String
  baseUrl : Option String
  apiFormat : String
deriving DecidableEq

/-- The mutable state of one stdio `McpClient` (client.rs lines 25-54),
restricted to the fields the verified claims observe.  `pending` is the
key set of the `pending_requests` table (each live key holds a single-use
oneshot sender); `stdinTx` records whether the stdin channel sender is
present (`stdin_tx: Option<Sender<String>>`). -/
structure ClientState where
  serverId : String
  serverName : String
  pending : Finset Nat
  isConnected : Bool
  lastError : Option String
  tools : List McpTool
  resources : List McpResource
  cancelled : Bool
  samplingConfig : Option SamplingLlmConfig
  stdinTx : Bool
  serverInfo : Option ServerInfo
deriving DecidableEq

/-- A fresh client as built by `McpClient::new` (client.rs lines 56-83). -/
def McpClient.new (serverId serverName : String) : ClientState :=
  { serverId := serverId
    serverName := serverName
    pending := ∅
    isConnected := false
    lastError := none
    tools := []
    resources := []
    cancelled := false
    samplingConfig := none
    stdinTx := false
    serverInfo := none }

deriving instance DecidableEq for Except

/-- Observable side effects of the stdout-reader handling one line
(client.rs lines 211-347).  `α` is the deserialized shape of the sampling
parameters (the serde layer for `SamplingCreateMessageParams` is abstracted
as an argument of `processLine`). -/
inductive ReaderOutput (α : Type) where
  | startSampling (requestId : Json) (params : α)
  | writeLine (msg : Json)
  | resolve (id : Nat) (outcome : Except String Json)
  | log
deriving DecidableEq

/-- The JSON-RPC error envelope built by `send_jsonrpc_error_sync`
(client.rs lines 707-727). -/
def errorResponseJson (requestId : Json) (code : Int) (message : String) : Json :=
  Json.obj (.cons "jsonrpc" (.str "2.0")
    (.cons "id" requestId
      (.cons "error" (Json.obj (.cons "code" (.num code)
        (.cons "message" (.str message) .nil))) .nil)))

/-- Models `send_jsonrpc_error_sync` (client.rs lines 707-727): serializes
the error envelope and `try_send`s it on the stdin channel if the sender is
still present; if the sender is gone the write is silently dropped. -/
def sendJsonrpcErrorSync (α : Type) (st : ClientState) (requestId : Json) (code : Int)
    (message : String) : List (ReaderOutput α) :=
  if st.stdinTx then [.writeLine (errorResponseJson requestId code message)] else []

/-- The outcome delivered to a pending slot for a matched response
(client.rs lines 286-291): a present `error` becomes
`Err("JSON-RPC error {code}: {message}")`, otherwise
`Ok(result.unwrap_or(Null))`. -/
def responseOutcome (r : JsonRpcResponse) : Except String Json :=
  match r.error with
  | some er => .error ("JSON-RPC error " ++ toString er.code ++ ": " ++ er.message)
  | none => .ok (r.result.getD Json.null)

/-- One step of the stdout-reader thread on a successfully read, non-empty
line (client.rs lines 214-315).  The input is the line's JSON parse
(`none` = the line is not valid JSON).  `parseSP` models
`serde_json::from_value::<SamplingCreateMessageParams>` (client.rs line
236), returning the deserialized params or serde's error message.
Returns the updated state and the observable outputs, in order:

1. the line is tried as a `JsonRpcIncomingRequest` (method plus id):
   a `sampling/createMessage` request is answered from the sampling
   bridge — dispatched as a job when an LLM config and the stdin sender
   are available and the params deserialize, otherwise answered with a
   JSON-RPC error carrying the peer's id; any other method is answered
   with error `-32601`;
2. otherwise it is tried as a `JsonRpcResponse` and routed to the pending
   table by id (an unknown id is logged and discarded);
3. otherwise it is tried as a `JsonRpcNotification` (logged only);
4. otherwise it is logged and discarded. -/
def McpClient.processLine {α : Type} (st : ClientState) (parseSP : Json → Except String α)
    (line : Option Json) : ClientState × List (ReaderOutput α) :=
  match line with
  | none => (st, [.log])
  | some j =>
    match parseIncomingRequest j with
    | some incoming =>
      if incoming.method = "sampling/createMessage" then
        match st.samplingConfig, st.stdinTx with
        | some _, true =>
          match incoming.params with
          | some pv =>
            match parseSP pv with
            | .ok p => (st, [.startSampling incoming.id p])
            | .error e =>
                (st, sendJsonrpcErrorSync α st incoming.id (-32602)
                  ("Invalid sampling params: " ++ e))
          | none =>
              (st, sendJsonrpcErrorSync α st incoming.id (-32602)
                "Missing params in sampling request")
        | _, _ =>
            (st, sendJsonrpcErrorSync α st incoming.id (-32603)
              "Sampling not configured: no LLM config available")
      else
        (st, sendJsonrpcErrorSync α st incoming.id (-32601)
          ("Method not found: " ++ incoming.method))
    | none =>
      match parseResponse j with
      | some resp =>
        if resp.id ∈ st.pending then
          ({ st with pending := st.pending.erase resp.id },
            [.resolve resp.id (responseOutcome resp)])
        else (st, [.log])
      | none =>
        match parseNotification j with
        | some _ => (st, [.log])
        | none => (st, [.log])

/-- Folding the reader step over a sequence of inbound lines, collecting
all outputs (the reader thread handles lines strictly in arrival order). -/
def McpClient.processLines {α : Type} (st : ClientState) (parseSP : Json → Except String α) :
    List (Option Json) → ClientState × List (ReaderOutput α)
  | [] => (st, [])
  | l :: ls =>
    let s1 := McpClient.processLine st parseSP l
    let s2 := McpClient.processLines s1.1 parseSP ls
    (s2.1, s1.2 ++ s2.2)

/-- Embedded resource content (types.rs lines 220-228). -/
structure ResourceContent where
  uri : String
  mimeType : Option String
  text : Option String
  blob : Option String
deriving DecidableEq

/-- Typed tool-call content items (types.rs lines 188-197); order is
significant and preserved. -/
inductive ToolContent where
  | text (text : String)
  | image (data : String) (mimeType : String)
  | resource (resource : ResourceContent)
deriving DecidableEq

/-- Transport-level tool call result (types.rs lines 180-186):
content items plus the tool-reported `isError` flag. -/
structure ToolCallResult where
  content : List ToolContent
  isError : Bool
deriving DecidableEq

/-- Result of `resources/read` (types.rs lines 230-233). -/
structure ResourceReadResult where
  contents : List ResourceContent
deriving DecidableEq

/-- The manager's response envelope for a tool call
(types.rs lines 353-360, `CallToolResponse`). -/
structure CallToolResponse where
  success : Bool
  content : List ToolContent
  error : Option String
deriving DecidableEq

/-- Per-connection status surfaced to the UI (types.rs lines 239-253). -/
structure ServerStatus where
  serverId : String
  name : String
  isRunning : Bool
  tools : List McpTool
  resources : List McpResource
  serverInfo : Option ServerInfo
  error : Option String
deriving DecidableEq

/-- Models `McpClient::get_status` (client.rs lines 694-704). -/
def McpClient.getStatus (c : ClientState) : ServerStatus :=
  { serverId := c.serverId
    name := c.serverName
    isRunning := c.isConnected
    tools := c.tools
    resources := c.resources
    serverInfo := c.serverInfo
    error := c.lastError }

/-- Models `McpClient::reset_cancellation` (client.rs lines 106-109):
clears the cancellation flag and the stored error. -/
def McpClient.resetCancellation (c : ClientState) : ClientState :=
  { c with cancelled := false, lastError := none }

/-- Models `McpClient::call_tool` (client.rs lines 452-488).  `run` is the
outcome of the underlying `send_request_with_timeout` plus the
`from_value::<ToolCallResult>` decode; `cancelledAfter` is the value of the
cancellation flag re-read after the request completes. -/
def McpClient.callTool (c : ClientState) (run : Except String ToolCallResult)
    (cancelledAfter : Bool) : Except String ToolCallResult :=
  match c.lastError with
  | some e => .error ("Client in error state: " ++ e)
  | none =>
    if !c.isConnected then .error "Not connected"
    else if c.cancelled then .error "Operation cancelled"
    else
      match run with
      | .error e => .error e
      | .ok result => if cancelledAfter then .error "Operation cancelled" else .ok result

/-- Models `McpClient::read_resource` (client.rs lines 491-506).  Note the
entry check: only `is_connected` is consulted — the stored `last_error` is
never inspected on this path. -/
def McpClient.readResource (c : ClientState) (run : Except String ResourceReadResult) :
    Except String ResourceReadResult :=
  if !c.isConnected then .error "Not connected" else run

/-- The entry gate of `McpClient::send_request_with_timeout`
(client.rs lines 519-531): returns `some msg` when the call is rejected
before any request is sent.  When disconnected, the stored error (if any)
is appended to the message. -/
def McpClient.sendRequestGate (c : ClientState) (checkConnected : Bool) : Option String :=
  if checkConnected && !c.isConnected then
    some (match c.lastError with
      | some e => "Not connected: " ++ e
      | none => "Not connected")
  else if c.cancelled then some "Operation cancelled"
  else none

/-- Models `McpClient::connect` (client.rs lines 129-373) to the depth the
claims need.  `spawn` is the outcome of `Command::spawn` (line 145);
`handshake` abstracts the initialize/initialized/refresh sequence (lines
366-367, `initialize()`), which runs only after a successful spawn.  On a
spawn failure the error is returned by `?` at line 145 — before any
`set_error`, so neither `last_error` nor any other field of the client is
touched. -/
def McpClient.connect (c : ClientState) (spawn : Except String Unit)
    (handshake : ClientState → ClientState × Except String Unit) :
    ClientState × Except String Unit :=
  if c.isConnected then (c, .ok ())
  else
    match spawn with
    | .error e => (c, .error ("Failed to spawn process: " ++ e))
    | .ok _ =>
      let c1 := { c with stdinTx := true }
      match handshake c1 with
      | (c2, .error e) => (c2, .error e)
      | (c2, .ok _) => ({ c2 with isConnected := true }, .ok ())

/-- Lookup in the manager's connection map (modelled as an association
list keyed by server id). -/
def mgrLookup : List (String × ClientState) → String → Option ClientState
  | [], _ => none
  | (k, v) :: m, key => if k = key then some v else mgrLookup m key

/-- `HashMap::insert` on the manager's connection map: replaces an
existing entry for the key, otherwise appends. -/
def mgrInsert : List (String × ClientState) → String → ClientState →
    List (String × ClientState)
  | [], key, c => [(key, c)]
  | (k, v) :: m, key, c =>
    if k = key then (k, c) :: m else (k, v) :: mgrInsert m key c

/-- The connect-and-register path of `McpManager::start_server`
(manager.rs lines 106-125): build a fresh client, `connect()` it, and only
on success insert it into the map and return its status; on failure the
error propagates by `?` (line 117) and the client is dropped unregistered. -/
def McpManager.startServerConnect (m : List (String × ClientState))
    (serverId serverName : String) (spawn : Except String Unit)
    (handshake : ClientState → ClientState × Except String Unit) :
    List (String × ClientState) × Except String ServerStatus :=
  match McpClient.connect (McpClient.new serverId serverName) spawn handshake with
  | (c1, .ok _) => (mgrInsert m serverId c1, .ok (McpClient.getStatus c1))
  | (_, .error e) => (m, .error e)

/-- Models `McpManager::start_server` (manager.rs lines 86-126): a no-op
returning the current status when the id is already registered and
connected, otherwise the connect-and-register path. -/
def McpManager.startServer (m : List (String × ClientState))
    (serverId serverName : String) (spawn : Except String Unit)
    (handshake : ClientState → ClientState × Except String Unit) :
    List (String × ClientState) × Except String ServerStatus :=
  match mgrLookup m serverId with
  | some c =>
    if c.isConnected then (m, .ok (McpClient.getStatus c))
    else McpManager.startServerConnect m serverId serverName spawn handshake
  | none => McpManager.startServerConnect m serverId serverName spawn handshake

/-- Models `McpManager::get_server_status` (manager.rs lines 210-213):
`None` when the id is not registered. -/
def McpManager.getServerStatus (m : List (String × ClientState)) (serverId : String) :
    Option ServerStatus :=
  (mgrLookup m serverId).map McpClient.getStatus

/-- Models `McpManager::call_tool` (manager.rs lines 243-276).
`cancelled1` and `cancelled2` are the manager-wide cancellation flag as
read before dispatch and after the client call returns; `clientResult` is
the outcome of the dispatched `McpClientWrapper::call_tool`.  A client
`Ok(result)` becomes a response envelope with `success = !is_error`; a
client `Err(e)` becomes an `Ok` envelope with `success = false`, empty
content and the message in `error` (manager.rs lines 270-275). -/
def McpManager.callTool (m : List (String × ClientState)) (cancelled1 : Bool)
    (serverId : String) (clientResult : Except String ToolCallResult)
    (cancelled2 : Bool) : Except String CallToolResponse :=
  if cancelled1 then .error "Tool call cancelled"
  else
    match mgrLookup m serverId with
    | none => .error ("Server " ++ serverId ++ " not found or not running")
    | some _ =>
      match clientResult with
      | .ok result =>
        if cancelled2 then .error "Tool call cancelled"
        else .ok { success := !result.isError, content := result.content, error := none }
      | .error e => .ok { success := false, content := [], error := some e }

/-!
Request correlator (client.rs): the pending-request table under the events
that touch it.  Each event below is one critical section on the
mutex-guarded `pending_requests` map:

* `send` — `send_request_with_timeout` allocates `id = request_id.fetch_add(1)`
  (line 533) and inserts a fresh oneshot sender under it (line 547);
* `response id` — the stdout reader matches an inbound response and
  `remove`s the slot, fulfilling it (lines 284-291);
* `timeout id` — the deadline fires and the waiting caller `remove`s its
  own slot (line 579); the failed-write path (lines 557, 562) removes the
  just-inserted slot the same way;
* `drain` — `cancel` (line 99), `disconnect` (line 632), a stdin write
  failure (lines 180, 193), or stdout EOF/error (lines 327, 343) drains
  the whole table, failing every slot.

A slot is RESOLVED by an event when that event removes its (still
present) entry from the table — the removed oneshot sender is consumed
exactly then (fulfilled, or dropped by the timed-out caller).
-/

/-- Events on one connection's pending-request table. -/
inductive CorrEvent where
  | send : CorrEvent
  | response (id : Nat) : CorrEvent
  | timeout (id : Nat) : CorrEvent
  | drain : CorrEvent
deriving DecidableEq

/-- Correlator state: the atomic id allocator (`request_id: AtomicU64`,
client.rs line 37) and the key set of `pending_requests`. -/
structure CorrState where
  nextId : Nat
  pending : Finset Nat
deriving DecidableEq

/-- One event's effect on the correlator state. -/
def corrStep (s : CorrState) : CorrEvent → CorrState
  | .send => ⟨s.nextId + 1, insert s.nextId s.pending⟩
  | .response i => ⟨s.nextId, s.pending.erase i⟩
  | .timeout i => ⟨s.nextId, s.pending.erase i⟩
  | .drain => ⟨s.nextId, ∅⟩

/-- Running a trace of events. -/
def corrRun (s : CorrState) : List CorrEvent → CorrState
  | [] => s
  | e :: es => corrRun (corrStep s e) es

/-- Whether an event resolves the slot of id `i`: it removes a present
entry for `i` (consuming the oneshot sender stored there). -/
def resolvesId (s : CorrState) (e : CorrEvent) (i : Nat) : Bool :=
  match e with
  | .send => false
  | .response k => k = i && decide (i ∈ s.pending)
  | .timeout k => k = i && decide (i ∈ s.pending)
  | .drain => decide (i ∈ s.pending)

/-- How many events of a trace resolve the slot of id `i`. -/
def resolveCount (s : CorrState) (tr : List CorrEvent) (i : Nat) : Nat :=
  match tr with
  | [] => 0
  | e :: es => (if resolvesId s e i then 1 else 0) + resolveCount (corrStep s e) es i

/-- The allocator invariant: every pending id was previously allocated
(`fetch_add` hands out `0, 1, 2, …` and never reuses a value). -/
def corrInv (s : CorrState) : Prop :=
  ∀ i ∈ s.pending, i < s.nextId

/-- An event that completes the call waiting on id `i`: a matching
response, that call's timeout, or a table drain. -/
def completesFor (e : CorrEvent) (i : Nat) : Prop :=
  e = .response i ∨ e = .timeout i ∨ e = .drain

instance (e : CorrEvent) (i : Nat) : Decidable (completesFor e i) := by
  unfold completesFor
  infer_instance

/-!
SSE parsing (http_client.rs lines 112-276).  Byte buffers and strings are
modelled as `List Char` (the SSE payloads the code handles are UTF-8 text;
chunk boundaries are modelled at character granularity).
-/

/-- Index of the first occurrence of `pat` in `s` (Rust `str::find` with a
string pattern). -/
def firstOccur (pat : List Char) : List Char → Option Nat
  | [] => if pat.isEmpty then some 0 else none
  | c :: cs =>
    if pat.isPrefixOf (c :: cs) then some 0
    else (firstOccur pat cs).map (· + 1)

/-- The event-boundary search of `parse_sse_response` (http_client.rs lines
163-170): the position and length of the first boundary, trying
`"\r\n\r\n"` first and only then `"\n\n"` (exactly as the source does). -/
def findBoundary (b : List Char) : Option (Nat × Nat) :=
  match firstOccur ['\r', '\n', '\r', '\n'] b with
  | some p => some (p, 4)
  | none => (firstOccur ['\n', '\n'] b).map fun p => (p, 2)

/-- Rust `str::split_inclusive('\n')`: segments that keep their trailing
newline; the final segment (without a newline) is kept unless empty. -/
def splitInclNl : List Char → List (List Char)
  | [] => []
  | c :: cs =>
    if c = '\n' then [c] :: splitInclNl cs
    else
      match splitInclNl cs with
      | [] => [[c]]
      | l :: ls => (c :: l) :: ls

/-- The per-line trimming of Rust `str::lines`: strip one trailing `'\n'`,
and then one trailing `'\r'` only if a newline was stripped. -/
def lineTrimEnd (l : List Char) : List Char :=
  match l.reverse with
  | '\n' :: '\r' :: rest => rest.reverse
  | '\n' :: rest => rest.reverse
  | _ => l

/-- Rust `str::lines` (used by `parse_sse_event_full`, http_client.rs line
242). -/
def rustLines (s : List Char) : List (List Char) :=
  (splitInclNl s).map lineTrimEnd

/-- Rust `str::trim_start` (http_client.rs line 243).  Lean's
`Char.isWhitespace` (space, tab, CR, LF) agrees with Rust
`char::is_whitespace` on the ASCII range. -/
def trimStartCh (l : List Char) : List Char :=
  l.dropWhile Char.isWhitespace

/-- Rust `str::trim` (both ends). -/
def trimCh (l : List Char) : List Char :=
  ((l.dropWhile Char.isWhitespace).reverse.dropWhile Char.isWhitespace).reverse

/-- Rust `str::strip_prefix`. -/
def stripPrefixCh (pre l : List Char) : Option (List Char) :=
  if pre.isPrefixOf l then some (l.drop pre.length) else none

/-- The prefix `"event:"`. -/
def eventPrefix : List Char := ['e', 'v', 'e', 'n', 't', ':']

/-- The prefix `"data:"`. -/
def dataPrefix : List Char := ['d', 'a', 't', 'a', ':']

/-- Per the SSE spec, a single leading space after `"data:"` is removed
(http_client.rs lines 250-254). -/
def dropOneSpace : List Char → List Char
  | ' ' :: rest => rest
  | l => l

/-- One iteration of the line loop of `parse_sse_event_full`
(http_client.rs lines 242-262), on the state
(current event type, data lines so far). -/
def sseLineStep (st : Option (List Char) × List (List Char)) (rawLine : List Char) :
    Option (List Char) × List (List Char) :=
  let line := trimStartCh rawLine
  match stripPrefixCh eventPrefix line with
  | some et => (some (trimCh et), st.2)
  | none =>
    match stripPrefixCh dataPrefix line with
    | some d => (st.1, st.2 ++ [dropOneSpace d])
    | none => st

/-- Newline-join of the collected data lines (`data_lines.join("\n")`,
http_client.rs line 267). -/
def joinNl : List (List Char) → List Char
  | [] => []
  | [x] => x
  | x :: xs => x ++ '\n' :: joinNl xs

/-- The body of `parse_sse_event_full` on an already-split line list. -/
def parseSseLinesFull (ls : List (List Char)) : Option (List Char) × Option (List Char) :=
  let st := ls.foldl sseLineStep (none, [])
  (st.1, if st.2.isEmpty then none else some (joinNl st.2))

/-- Models `parse_sse_event_full` (http_client.rs lines 238-271): extract
the (last) `event:` field value and the newline-joined `data:` payloads
from one event block. -/
def parseSseEventFull (block : List Char) : Option (List Char) × Option (List Char) :=
  parseSseLinesFull (rustLines block)

/-- Abstraction of the serde layer applied to a complete SSE `data`
payload (http_client.rs lines 202-218): the payload may deserialize as a
`JsonRpcResponse` (with its optional error and result), as a
`JsonRpcNotification`, or as neither. -/
inductive SseDataClass where
  | response (error : Option JsonRpcError) (result : Option Json) : SseDataClass
  | notification : SseDataClass
  | other : SseDataClass
deriving DecidableEq

/-- State of `parse_sse_response` between event blocks: the pending
`last_event_type` and the captured `result`. -/
structure SseSt where
  buffer : List Char
  lastET : Option (List Char)
  result : Option Json
deriving DecidableEq

/-- Handling of one complete event block inside `parse_sse_response`
(http_client.rs lines 172-224): parse the block, update the pending event
type, and dispatch on the data payload (if any).  An `error`-typed payload
or a payload deserializing to a response bearing a JSON-RPC error
terminates the whole parse with `Except.error`; a response payload
replaces the captured result; the pending event type is reset exactly when
a data payload was processed. -/
def processEventBlock (classify : List Char → SseDataClass)
    (lastET : Option (List Char)) (result : Option Json) (block : List Char) :
    Except (List Char) (Option (List Char) × Option Json) :=
  let parsed := parseSseEventFull block
  let cur := match parsed.1 with
    | some et => some et
    | none => lastET
  match parsed.2 with
  | none => .ok (cur, result)
  | some d =>
    if cur = some ("error".data) then .error ("SSE error event: ".data ++ d)
    else if cur = some ("endpoint".data) then .ok (none, result)
    else
      match classify d with
      | .response (some er) _ =>
          .error (("JSON-RPC error " ++ toString er.code ++ ": " ++ er.message).data)
      | .response none r => .ok (none, some (r.getD Json.null))
      | .notification => .ok (none, result)
      | .other => .ok (none, result)

/-- The inner event loop of `parse_sse_response` (http_client.rs lines
162-225), fuelled: repeatedly split the buffer at the first event boundary
and process the completed block, until no boundary remains.  `fuel` bounds
the number of iterations; since every iteration removes at least two
characters from the buffer, `buffer.length` iterations always suffice
(`processBufferLoopF_stable` below proves the fuel is irrelevant beyond
that bound), and the wrapper `processBufferLoop` supplies exactly that
fuel — so the fuelled function agrees with the source loop everywhere the
source loop is defined. -/
def processBufferLoopF (classify : List Char → SseDataClass) :
    Nat → SseSt → Except (List Char) SseSt
  | 0, st => .ok st
  | fuel + 1, st =>
    match findBoundary st.buffer with
    | none => .ok st
    | some (pos, skip) =>
      match processEventBlock classify st.lastET st.result (st.buffer.take pos) with
      | .error e => .error e
      | .ok (et2, res2) =>
        processBufferLoopF classify fuel ⟨st.buffer.drop (pos + skip), et2, res2⟩

/-- The inner event loop of `parse_sse_response`, with the always
sufficient fuel. -/
def processBufferLoop (classify : List Char → SseDataClass) (st : SseSt) :
    Except (List Char) SseSt :=
  processBufferLoopF classify st.buffer.length st

/-- Appending one received chunk to the buffer and draining complete
events (http_client.rs lines 156-225). -/
def stepChunk (classify : List Char → SseDataClass) (st : SseSt) (chunk : List Char) :
    Except (List Char) SseSt :=
  processBufferLoop classify ⟨st.buffer ++ chunk, st.lastET, st.result⟩

/-- The chunk loop of `parse_sse_response` (http_client.rs lines 121-231),
over the list of chunks the stream delivers before ending.  After each
chunk, if a result has been captured and the remaining buffer is blank the
loop returns early, ignoring all later chunks (http_client.rs lines
227-230). -/
def runChunks (classify : List Char → SseDataClass) :
    SseSt → List (List Char) → Except (List Char) SseSt
  | st, [] => .ok st
  | st, c :: cs =>
    match stepChunk classify st c with
    | .error e => .error e
    | .ok st2 =>
      if st2.result.isSome && (trimCh st2.buffer).isEmpty then .ok st2
      else runChunks classify st2 cs

/-- Models `parse_sse_response` (http_client.rs lines 114-234) on a
delivered chunk sequence: run the chunk loop from the empty buffer and
return the captured result, or an error if none was captured. -/
def parseSseChunks (classify : List Char → SseDataClass) (chunks : List (List Char)) :
    Except (List Char) Json :=
  match runChunks classify ⟨[], none, none⟩ chunks with
  | .error e => .error e
  | .ok st =>
    match st.result with
    | some r => .ok r
    | none => .error ("No response received from SSE stream".data)

/-- Whether a reader output resolves a pending slot. -/
def isResolveOut {α : Type} : ReaderOutput α → Bool
  | .resolve _ _ => true
  | _ => false

/-- The shape condition of the spec for a peer-initiated request: the line
is a JSON object carrying a string `jsonrpc`, a string `method` and a
present `id` field. -/
def reqShaped (j : Json) : Bool :=
  (j.getStrField "jsonrpc").isSome && (j.getStrField "method").isSome &&
    (j.getField "id").isSome

/-- Specification-side reading of one SSE line as an `event:` field
(after leading-whitespace trim; the value is trimmed). -/
def eventPayloadSpec (l : List Char) : Option (List Char) :=
  (stripPrefixCh eventPrefix (trimStartCh l)).map trimCh

/-- Specification-side reading of one SSE line as a `data:` field (after
leading-whitespace trim; exactly one leading space after the colon is
stripped). -/
def dataPayloadSpec (l : List Char) : Option (List Char) :=
  (stripPrefixCh dataPrefix (trimStartCh l)).map dropOneSpace

/-- Specification-side event type of a block: the value of its last
`event:` line, if any. -/
def lastEventTypeSpec (ls : List (List Char)) : Option (List Char) :=
  (ls.filterMap eventPayloadSpec).getLast?

/-- Specification-side data payloads of a block, in order. -/
def sseDataSpec (ls : List (List Char)) : List (List Char) :=
  ls.filterMap dataPayloadSpec

/-- An SSE line that the parser ignores: a comment (leading colon), an
`id:` field, or a `retry:` field (after leading-whitespace trim). -/
def sseIgnorable (l : List Char) : Bool :=
  [':'].isPrefixOf (trimStartCh l) || ['i', 'd', ':'].isPrefixOf (trimStartCh l) ||
    ['r', 'e', 't', 'r', 'y', ':'].isPrefixOf (trimStartCh l)

/-- A client that entered the error state: `set_error` (client.rs lines
122-126) stored a message and cleared the connected flag. -/
def demoErrClient : ClientState :=
  { McpClient.new "srv1" "server one" with lastError := some "boom", isConnected := false }

/-- A response line whose id (7) is not pending anywhere. -/
def demoRespJson : Json :=
  Json.obj (.cons "jsonrpc" (.str "2.0") (.cons "id" (.num 7) .nil))

/-- A connected client with the stdin sender present and no sampling
config injected. -/
def demoSamplingClient : ClientState :=
  { McpClient.new "srv1" "server one" with stdinTx := true, isConnected := true }

/-- A peer-initiated `sampling/createMessage` request with a string id. -/
def demoSamplingReq : Json :=
  Json.obj (.cons "jsonrpc" (.str "2.0")
    (.cons "id" (.str "req-1")
      (.cons "method" (.str "sampling/createMessage") .nil)))

/-- A client with two requests in flight (pending ids 1 and 2). -/
def demoPendClient : ClientState :=
  { McpClient.new "srv1" "server one" with pending := {1, 2}, isConnected := true }

/-- Response line for pending id 1 carrying result "a". -/
def demoRespA : Json :=
  Json.obj (.cons "jsonrpc" (.str "2.0")
    (.cons "id" (.num 1) (.cons "result" (.str "a") .nil)))

/-- Response line for pending id 2 carrying result "b". -/
def demoRespB : Json :=
  Json.obj (.cons "jsonrpc" (.str "2.0")
    (.cons "id" (.num 2) (.cons "result" (.str "b") .nil)))

/-- A concrete serde abstraction for SSE data payloads: the payload
`"ok1"` deserializes as a JSON-RPC response with result `"v1"`; anything
else deserializes as neither response nor notification. -/
def classifyDemo (d : List Char) : SseDataClass :=
  if d = "ok1".data then .response none (some (Json.str "v1")) else .other

/-- The spec's concrete SSE event block: an `event: message` block whose
data payload is a JSON-RPC result envelope, terminated by a blank line. -/
def demoSse : List Char :=
  ("event: message\ndata: \x7b\"jsonrpc\":\"2.0\",\"id\":1,\"result\":\x7b\"ok\":true\x7d\x7d\n\n").data

/-! Supporting lemmas and claim theorems. -/

theorem corrInv_step (s : CorrState) (e : CorrEvent) (h : corrInv s) :
    corrInv (corrStep s e) := by
  cases e with
  | send =>
    intro i hi
    simp only [corrStep, Finset.mem_insert] at hi
    rcases hi with rfl | hi
    · exact Nat.lt_succ_self s.nextId
    · exact Nat.lt_succ_of_lt (h i hi)
  | response k =>
    intro i hi
    exact h i (Finset.mem_of_mem_erase hi)
  | timeout k =>
    intro i hi
    exact h i (Finset.mem_of_mem_erase hi)
  | drain =>
    intro i hi
    simp [corrStep] at hi

/-- A slot that is absent and already-allocated stays absent: later sends
use fresh ids, so nothing re-creates it. -/
theorem notPending_stays_out (tr : List CorrEvent) (s : CorrState) (i : Nat)
    (hout : i ∉ s.pending) (halloc : i < s.nextId) :
    i ∉ (corrRun s tr).pending ∧ i < (corrRun s tr).nextId := by
  induction tr generalizing s with
  | nil => exact ⟨hout, halloc⟩
  | cons e es ih =>
    refine ih (corrStep s e) ?_ ?_
    · cases e with
      | send =>
        simp only [corrStep, Finset.mem_insert]
        rintro (rfl | hc)
        · omega
        · exact hout hc
      | response k => exact fun hc => hout (Finset.mem_of_mem_erase hc)
      | timeout k => exact fun hc => hout (Finset.mem_of_mem_erase hc)
      | drain => simp [corrStep]
    · cases e with
      | send => exact Nat.lt_succ_of_lt halloc
      | response k => exact halloc
      | timeout k => exact halloc
      | drain => exact halloc

/-- An absent, already-allocated slot is never resolved again. -/
theorem notPending_resolveCount_zero (tr : List CorrEvent) (s : CorrState) (i : Nat)
    (hout : i ∉ s.pending) (halloc : i < s.nextId) :
    resolveCount s tr i = 0 := by
  induction tr generalizing s with
  | nil => rfl
  | cons e es ih =>
    have hnot : resolvesId s e i = false := by
      cases e <;> simp [resolvesId, hout]
    have h2 := notPending_stays_out [e] s i hout halloc
    simp only [corrRun] at h2
    simp [resolveCount, hnot, ih (corrStep s e) h2.1 h2.2]

/-- Resolving an event removes the slot from the table. -/
theorem resolvesId_removes (s : CorrState) (e : CorrEvent) (i : Nat)
    (h : resolvesId s e i = true) : i ∉ (corrStep s e).pending := by
  cases e with
  | send => exact Bool.noConfusion h
  | response k =>
    simp only [resolvesId, Bool.and_eq_true, decide_eq_true_eq] at h
    simp [corrStep, Finset.mem_erase, h.1]
  | timeout k =>
    simp only [resolvesId, Bool.and_eq_true, decide_eq_true_eq] at h
    simp [corrStep, Finset.mem_erase, h.1]
  | drain => simp [corrStep]

/-- Only a present slot can be resolved. -/
theorem resolvesId_mem (s : CorrState) (e : CorrEvent) (i : Nat)
    (h : resolvesId s e i = true) : i ∈ s.pending := by
  cases e with
  | send => exact Bool.noConfusion h
  | response k =>
    simp only [resolvesId, Bool.and_eq_true, decide_eq_true_eq] at h
    exact h.2
  | timeout k =>
    simp only [resolvesId, Bool.and_eq_true, decide_eq_true_eq] at h
    exact h.2
  | drain =>
    simpa [resolvesId] using h

/-- The id allocator never goes backwards. -/
theorem corrStep_nextId_le (s : CorrState) (e : CorrEvent) :
    s.nextId ≤ (corrStep s e).nextId := by
  cases e with
  | send => exact Nat.le_succ _
  | response k => exact Nat.le_refl _
  | timeout k => exact Nat.le_refl _
  | drain => exact Nat.le_refl _

/-- A completion event for a pending slot resolves it. -/
theorem completes_resolves (s : CorrState) (e : CorrEvent) (i : Nat)
    (hin : i ∈ s.pending) (hc : completesFor e i) : resolvesId s e i = true := by
  rcases hc with rfl | rfl | rfl <;> simp [resolvesId, hin]

/-- A pending slot survives any event that does not complete its call. -/
theorem pending_stays (s : CorrState) (e : CorrEvent) (i : Nat)
    (hin : i ∈ s.pending) (hnc : ¬ completesFor e i) :
    i ∈ (corrStep s e).pending := by
  cases e with
  | send => exact Finset.mem_insert_of_mem hin
  | response k =>
    refine Finset.mem_erase.mpr ⟨?_, hin⟩
    intro rfl2
    exact hnc (Or.inl (by rw [rfl2]))
  | timeout k =>
    refine Finset.mem_erase.mpr ⟨?_, hin⟩
    intro rfl2
    exact hnc (Or.inr (Or.inl (by rw [rfl2])))
  | drain => exact absurd (Or.inr (Or.inr rfl)) hnc

/-- Each slot is resolved at most once along any trace. -/
theorem resolveCount_le_one (tr : List CorrEvent) (s : CorrState) (i : Nat)
    (hinv : corrInv s) : resolveCount s tr i ≤ 1 := by
  induction tr generalizing s with
  | nil => exact Nat.zero_le 1
  | cons e es ih =>
    by_cases hr : resolvesId s e i = true
    · have hout := resolvesId_removes s e i hr
      have halloc : i < (corrStep s e).nextId :=
        Nat.lt_of_lt_of_le (hinv i (resolvesId_mem s e i hr)) (corrStep_nextId_le s e)
      simp [resolveCount, hr, notPending_resolveCount_zero es (corrStep s e) i hout halloc]
    · have hr2 : resolvesId s e i = false := by
        revert hr
        cases resolvesId s e i <;> simp
      simp [resolveCount, hr2, ih (corrStep s e) (corrInv_step s e hinv)]

/-- A pending slot whose call completes somewhere in the trace is resolved
at least once. -/
theorem pending_resolveCount_pos (tr : List CorrEvent) (s : CorrState) (i : Nat)
    (hin : i ∈ s.pending) (hc : ∃ e ∈ tr, completesFor e i) :
    1 ≤ resolveCount s tr i := by
  induction tr generalizing s with
  | nil => simp at hc
  | cons e es ih =>
    by_cases hce : completesFor e i
    · simp [resolveCount, completes_resolves s e i hin hce]
    · rcases hc with ⟨w, hw, hwc⟩
      rcases List.mem_cons.mp hw with rfl | hw2
      · exact absurd hwc hce
      · have := ih (corrStep s e) (pending_stays s e i hin hce) ⟨w, hw2, hwc⟩
        simp only [resolveCount]
        omega

/-- Once a pending slot's call completes, the table no longer contains it
— at the completion and ever after. -/
theorem slot_cleared (tr : List CorrEvent) (s : CorrState) (i : Nat)
    (hinv : corrInv s) (hin : i ∈ s.pending) (hc : ∃ e ∈ tr, completesFor e i) :
    i ∉ (corrRun s tr).pending := by
  induction tr generalizing s with
  | nil => simp at hc
  | cons e es ih =>
    by_cases hce : completesFor e i
    · have hr := completes_resolves s e i hin hce
      have hout := resolvesId_removes s e i hr
      have halloc : i < (corrStep s e).nextId :=
        Nat.lt_of_lt_of_le (hinv i hin) (corrStep_nextId_le s e)
      exact (notPending_stays_out es (corrStep s e) i hout halloc).1
    · rcases hc with ⟨w, hw, hwc⟩
      rcases List.mem_cons.mp hw with rfl | hw2
      · exact absurd hwc hce
      · exact ih (corrStep s e) (corrInv_step s e hinv)
          (pending_stays s e i hin hce) ⟨w, hw2, hwc⟩

theorem corrRun_append (s : CorrState) (tr1 tr2 : List CorrEvent) :
    corrRun s (tr1 ++ tr2) = corrRun (corrRun s tr1) tr2 := by
  induction tr1 generalizing s with
  | nil => rfl
  | cons e es ih => simp [corrRun, ih]

/-- Without sends, the table only shrinks. -/
theorem pending_subset_of_noSend (tr : List CorrEvent) (s : CorrState)
    (hns : CorrEvent.send ∉ tr) : (corrRun s tr).pending ⊆ s.pending := by
  induction tr generalizing s with
  | nil => exact Finset.Subset.refl _
  | cons e es ih =>
    have hns2 : CorrEvent.send ∉ es := fun h => hns (List.mem_cons_of_mem e h)
    refine (ih (corrStep s e) hns2).trans ?_
    cases e with
    | send => exact absurd (List.mem_cons_self CorrEvent.send es) hns
    | response k => exact Finset.erase_subset k s.pending
    | timeout k => exact Finset.erase_subset k s.pending
    | drain => exact Finset.empty_subset _

theorem isPrefixOf_length_le (pat s : List Char) (h : pat.isPrefixOf s = true) :
    pat.length ≤ s.length :=
  (List.isPrefixOf_iff_prefix.mp h).length_le

theorem firstOccur_bound (pat : List Char) (s : List Char) (p : Nat)
    (h : firstOccur pat s = some p) : p + pat.length ≤ s.length := by
  induction s generalizing p with
  | nil =>
    unfold firstOccur at h
    by_cases hp : pat.isEmpty
    · simp [hp] at h
      subst h
      simp [List.isEmpty_iff.mp hp]
    · simp [hp] at h
  | cons c cs ih =>
    unfold firstOccur at h
    by_cases hpre : pat.isPrefixOf (c :: cs) = true
    · simp [hpre] at h
      subst h
      simpa using isPrefixOf_length_le pat (c :: cs) hpre
    · simp [hpre] at h
      rcases h with ⟨q, hq, rfl⟩
      have := ih q hq
      simp only [List.length_cons]
      omega

theorem findBoundary_bound (b : List Char) (pos skip : Nat)
    (h : findBoundary b = some (pos, skip)) : pos + skip ≤ b.length ∧ 2 ≤ skip := by
  unfold findBoundary at h
  cases h4 : firstOccur ['\r', '\n', '\r', '\n'] b with
  | some p =>
    rw [h4] at h
    simp at h
    rcases h with ⟨rfl, rfl⟩
    have := firstOccur_bound _ b p h4
    simp at this
    omega
  | none =>
    rw [h4] at h
    simp at h
    rcases h with ⟨q, hq, rfl, rfl⟩
    have := firstOccur_bound _ b q hq
    simp at this
    omega

/-- C1 (counterexample): for a registered connection, a transport-level
failure of the underlying client's `call_tool` ("connection reset") is NOT
surfaced as a hard error: `McpManager::call_tool` returns a successful
response envelope with `success = false` and the message in `error`
(manager.rs lines 270-275), refuting the claim that a transport/protocol
failure becomes a hard error. -/
theorem mcp_C1_counterexample :
    McpManager.callTool [("srv1", McpClient.new "srv1" "server one")] false "srv1"
      (Except.error "connection reset") false =
      Except.ok { success := false, content := [], error := some "connection reset" } := by
  rfl

/-- C1 (amended): for a registered connection id and no manager-wide
cancellation, `McpManager::call_tool` translates a `ToolCallResult` with
`is_error = true` into a successful envelope with `success = false` and
`error = None`; a transport/protocol failure from the underlying client is
ALSO returned as a successful envelope, with `success = false`, empty
content and the failure message in `error` — callers distinguish the two
by the `error` field, not by a hard error. -/
theorem mcp_C1_amended (m : List (String × ClientState)) (serverId : String)
    (c : ClientState) (r : ToolCallResult) (e : String)
    (hreg : mgrLookup m serverId = some c) :
    (r.isError = true →
      McpManager.callTool m false serverId (Except.ok r) false =
        Except.ok { success := false, content := r.content, error := none }) ∧
    McpManager.callTool m false serverId (Except.error e) false =
      Except.ok { success := false, content := [], error := some e } := by
  constructor
  · intro hr
    simp [McpManager.callTool, hreg, hr]
  · simp [McpManager.callTool, hreg]

/-- C1 (witness): the amended statement at a concrete registry, a concrete
failed tool result and a concrete transport error. -/
theorem mcp_C1_amended_witness :
    McpManager.callTool [("srv1", McpClient.new "srv1" "server one")] false "srv1"
      (Except.ok { content := [ToolContent.text "oops"], isError := true }) false =
      Except.ok { success := false, content := [ToolContent.text "oops"], error := none } ∧
    McpManager.callTool [("srv1", McpClient.new "srv1" "server one")] false "srv1"
      (Except.error "boom") false =
      Except.ok { success := false, content := [], error := some "boom" } := by
  refine ⟨?_, ?_⟩
  · exact (mcp_C1_amended [("srv1", McpClient.new "srv1" "server one")] "srv1"
      (McpClient.new "srv1" "server one") { content := [ToolContent.text "oops"], isError := true }
      "boom" rfl).1 rfl
  · exact (mcp_C1_amended [("srv1", McpClient.new "srv1" "server one")] "srv1"
      (McpClient.new "srv1" "server one") { content := [], isError := false } "boom" rfl).2

/-- C4: whenever the stdout reader classifies a line as a peer-initiated
request with method `sampling/createMessage` and no sampling config is
injected (while the stdin sender is present), the client answers with
exactly one write: a JSON-RPC error envelope whose `id` field is the
peer's original request id; the client state is unchanged and the step is
a total function (no panic). -/
theorem mcp_C4 {α : Type} (st : ClientState) (psp : Json → Except String α) (j : Json)
    (inc : JsonRpcIncomingRequest) (hcfg : st.samplingConfig = none) (htx : st.stdinTx = true)
    (hinc : parseIncomingRequest j = some inc) (hm : inc.method = "sampling/createMessage") :
    McpClient.processLine st psp (some j) =
      (st, [ReaderOutput.writeLine (errorResponseJson inc.id (-32603)
        "Sampling not configured: no LLM config available")]) ∧
    (errorResponseJson inc.id (-32603)
      "Sampling not configured: no LLM config available").getField "id" = some inc.id := by
  constructor
  · simp [McpClient.processLine, hinc, hm, hcfg, sendJsonrpcErrorSync, htx]
  · simp [errorResponseJson, Json.getField, lookupField]

/-- C4 (witness): the sampling-bridge error reply at a concrete client and
a concrete peer request with string id "req-1". -/
theorem mcp_C4_witness :
    McpClient.processLine demoSamplingClient (fun _ => (Except.error "unused" : Except String Unit)) (some demoSamplingReq) =
      (demoSamplingClient, [ReaderOutput.writeLine (errorResponseJson (Json.str "req-1") (-32603)
        "Sampling not configured: no LLM config available")]) ∧
    (errorResponseJson (Json.str "req-1") (-32603)
      "Sampling not configured: no LLM config available").getField "id" = some (Json.str "req-1") :=
  mcp_C4 demoSamplingClient (fun _ => (Except.error "unused" : Except String Unit)) demoSamplingReq
    ⟨"2.0", Json.str "req-1", "sampling/createMessage", none⟩ rfl rfl rfl rfl

/-- C5: with requests A (id `ra.id`) and B (id `rb.id`) both in flight,
delivering the two response lines in either order resolves each pending
slot with its own response — correlation is by id only — and both orders
leave the same final pending table. -/
theorem mcp_C5 {α : Type} (st : ClientState) (psp : Json → Except String α)
    (ja jb : Json) (ra rb : JsonRpcResponse)
    (hia : parseIncomingRequest ja = none) (hib : parseIncomingRequest jb = none)
    (hra : parseResponse ja = some ra) (hrb : parseResponse jb = some rb)
    (hne : ra.id ≠ rb.id) (hpa : ra.id ∈ st.pending) (hpb : rb.id ∈ st.pending) :
    McpClient.processLines st psp [some jb, some ja] =
      ({ st with pending := (st.pending.erase rb.id).erase ra.id },
        [ReaderOutput.resolve rb.id (responseOutcome rb),
          ReaderOutput.resolve ra.id (responseOutcome ra)]) ∧
    McpClient.processLines st psp [some ja, some jb] =
      ({ st with pending := (st.pending.erase ra.id).erase rb.id },
        [ReaderOutput.resolve ra.id (responseOutcome ra),
          ReaderOutput.resolve rb.id (responseOutcome rb)]) ∧
    (st.pending.erase rb.id).erase ra.id = (st.pending.erase ra.id).erase rb.id := by
  have hmema : ra.id ∈ st.pending.erase rb.id := Finset.mem_erase.mpr ⟨hne, hpa⟩
  have hmemb : rb.id ∈ st.pending.erase ra.id :=
    Finset.mem_erase.mpr ⟨fun h => hne h.symm, hpb⟩
  refine ⟨?_, ?_, ?_⟩
  · simp [McpClient.processLines, McpClient.processLine, hia, hib, hra, hrb, hpb, hmema]
  · simp [McpClient.processLines, McpClient.processLine, hia, hib, hra, hrb, hpa, hmemb]
  · ext a
    simp only [Finset.mem_erase]
    tauto

/-- C5 (witness): two in-flight requests (ids 1 and 2) and their concrete
response lines, delivered B-before-A and A-before-B. -/
theorem mcp_C5_witness :
    McpClient.processLines demoPendClient (fun _ => (Except.error "unused" : Except String Unit))
        [some demoRespB, some demoRespA] =
      ({ demoPendClient with pending := (demoPendClient.pending.erase 2).erase 1 },
        [ReaderOutput.resolve 2 (Except.ok (Json.str "b")),
          ReaderOutput.resolve 1 (Except.ok (Json.str "a"))]) ∧
    McpClient.processLines demoPendClient (fun _ => (Except.error "unused" : Except String Unit))
        [some demoRespA, some demoRespB] =
      ({ demoPendClient with pending := (demoPendClient.pending.erase 1).erase 2 },
        [ReaderOutput.resolve 1 (Except.ok (Json.str "a")),
          ReaderOutput.resolve 2 (Except.ok (Json.str "b"))]) := by
  have h := mcp_C5 demoPendClient (fun _ => (Except.error "unused" : Except String Unit)) demoRespA demoRespB
    ⟨"2.0", 1, some (Json.str "a"), none⟩ ⟨"2.0", 2, some (Json.str "b"), none⟩
    rfl rfl rfl rfl (by decide) (by decide) (by decide)
  exact ⟨h.1, h.2.1⟩

/-- C8 (counterexample): starting a fresh Stdio connection whose command
cannot be spawned returns the spawn error, but a subsequent
`get_server_status` for that id returns `None` — no status with the spawn
error populated exists, refuting the last part of the claim. -/
theorem mcp_C8_counterexample :
    (McpManager.startServer [] "s1" "server one"
        (Except.error "No such file or directory") (fun c => (c, Except.ok ()))).2 =
      Except.error "Failed to spawn process: No such file or directory" ∧
    McpManager.getServerStatus
      (McpManager.startServer [] "s1" "server one"
        (Except.error "No such file or directory") (fun c => (c, Except.ok ()))).1 "s1" = none := by
  constructor <;> rfl

/-- C8 (amended): starting an unregistered Stdio connection whose command
cannot be spawned makes `start_server` return the spawn transport error
and leave the registry unchanged; the connection never reaches the
connected state; but the failed client is never registered, so
`get_server_status` returns `None` for that id — and the discarded
client's own status would carry `is_running = false` with `error = None`
(the spawn error is not stored in `last_error`). -/
theorem mcp_C8_amended (m : List (String × ClientState)) (sid name e : String)
    (hs : ClientState → ClientState × Except String Unit)
    (hlook : mgrLookup m sid = none) :
    McpManager.startServer m sid name (Except.error e) hs =
      (m, Except.error ("Failed to spawn process: " ++ e)) ∧
    McpManager.getServerStatus (McpManager.startServer m sid name (Except.error e) hs).1 sid =
      none ∧
    (McpClient.connect (McpClient.new sid name) (Except.error e) hs).1.isConnected = false ∧
    McpClient.getStatus (McpClient.connect (McpClient.new sid name) (Except.error e) hs).1 =
      { serverId := sid, name := name, isRunning := false, tools := [], resources := [],
        serverInfo := none, error := none } := by
  have hconn : McpClient.connect (McpClient.new sid name) (Except.error e) hs =
      (McpClient.new sid name, Except.error ("Failed to spawn process: " ++ e)) := by
    simp [McpClient.connect, McpClient.new]
  have hstart : McpManager.startServer m sid name (Except.error e) hs =
      (m, Except.error ("Failed to spawn process: " ++ e)) := by
    simp [McpManager.startServer, hlook, McpManager.startServerConnect, hconn]
  refine ⟨hstart, ?_, ?_, ?_⟩
  · rw [hstart]
    simp [McpManager.getServerStatus, hlook]
  · rw [hconn]
    rfl
  · rw [hconn]
    rfl

/-- C8 (witness): the amended statement at a fresh manager and a concrete
spawn failure. -/
theorem mcp_C8_amended_witness :
    McpManager.startServer [] "s1" "server one" (Except.error "No such file or directory")
        (fun c => (c, Except.ok ())) =
      ([], Except.error "Failed to spawn process: No such file or directory") ∧
    (McpClient.connect (McpClient.new "s1" "server one")
      (Except.error "No such file or directory") (fun c => (c, Except.ok ()))).1.isConnected =
        false := by
  have h := mcp_C8_amended [] "s1" "server one" "No such file or directory"
    (fun c => (c, Except.ok ())) rfl
  exact ⟨h.1, h.2.2.1⟩

/-- C9 (counterexample): a client in the error state (stored error "boom",
disconnected) rejects `read_resource` with the fixed message
"Not connected", which does not contain the stored error — refuting the
claim that every call is rejected with a message containing the stored
error. -/
theorem mcp_C9_counterexample :
    McpClient.readResource demoErrClient (Except.ok { contents := [] }) =
      Except.error "Not connected" ∧
    ¬ ("boom".data <:+: "Not connected".data) := by
  constructor
  · rfl
  · decide

/-- C9 (amended): once a stdio connection is in the error state (a stored
`last_error` and the connected flag cleared, as `set_error` leaves it),
`call_tool` is rejected immediately with "Client in error state: {e}" and
`send_request` with "Not connected: {e}" — both containing the stored
error — while `read_resource` is rejected immediately with the fixed
message "Not connected" (which does not carry the stored error); the
rejections persist until the error is cleared, and
`reset_cancellation` clears the stored error. -/
theorem mcp_C9_amended (c : ClientState) (e : String)
    (run : Except String ToolCallResult) (ca : Bool)
    (rrun : Except String ResourceReadResult)
    (herr : c.lastError = some e) (hdis : c.isConnected = false) :
    McpClient.callTool c run ca = Except.error ("Client in error state: " ++ e) ∧
    e.data <:+: ("Client in error state: " ++ e).data ∧
    McpClient.sendRequestGate c true = some ("Not connected: " ++ e) ∧
    e.data <:+: ("Not connected: " ++ e).data ∧
    McpClient.readResource c rrun = Except.error "Not connected" ∧
    (McpClient.resetCancellation c).lastError = none := by
  refine ⟨?_, ?_, ?_, ?_, ?_, ?_⟩
  · simp [McpClient.callTool, herr]
  · exact ⟨("Client in error state: ").data, [], by simp [String.data_append]⟩
  · simp [McpClient.sendRequestGate, hdis, herr]
  · exact ⟨("Not connected: ").data, [], by simp [String.data_append]⟩
  · simp [McpClient.readResource, hdis]
  · rfl

/-- C9 (witness): the amended statement at the concrete error-state client
with stored error "boom". -/
theorem mcp_C9_amended_witness :
    McpClient.callTool demoErrClient (Except.ok { content := [], isError := false }) false =
      Except.error "Client in error state: boom" ∧
    McpClient.sendRequestGate demoErrClient true = some "Not connected: boom" ∧
    McpClient.readResource demoErrClient (Except.ok { contents := [] }) =
      Except.error "Not connected" := by
  have h := mcp_C9_amended demoErrClient "boom"
    (Except.ok { content := [], isError := false }) false
    (Except.ok { contents := [] }) rfl rfl
  exact ⟨h.1, h.2.2.1, h.2.2.2.2.1⟩

/-- C10: a line that parses as a JSON-RPC response (and not as a
peer-initiated request) whose id is absent from the pending table is
logged and discarded: the whole client state — pending table, connected
flag, tools, resources, stored error — is unchanged and no pending slot is
resolved (the only output is a log entry). -/
theorem mcp_C10 {α : Type} (st : ClientState) (psp : Json → Except String α) (j : Json)
    (r : JsonRpcResponse) (hnr : parseIncomingRequest j = none)
    (hr : parseResponse j = some r) (hout : r.id ∉ st.pending) :
    McpClient.processLine st psp (some j) = (st, [ReaderOutput.log]) := by
  simp [McpClient.processLine, hnr, hr, hout]

/-- C10 (witness): a fresh client (empty pending table) receiving a
response with id 7. -/
theorem mcp_C10_witness :
    McpClient.processLine (McpClient.new "s1" "server one")
      (fun _ => (Except.error "unused" : Except String Unit)) (some demoRespJson) =
      (McpClient.new "s1" "server one", [ReaderOutput.log]) :=
  mcp_C10 (McpClient.new "s1" "server one") (fun _ => (Except.error "unused" : Except String Unit))
    demoRespJson ⟨"2.0", 7, none, none⟩ rfl rfl (by decide)

/-- The request branch of the reader dispatch never touches the pending
table: whatever the sampling config, stdin sender, params and their parse
outcome, the state keeps its pending set and no output resolves a slot. -/
theorem processLine_request_frame {α : Type} (st : ClientState) (psp : Json → Except String α)
    (j : Json) (inc : JsonRpcIncomingRequest) (hinc : parseIncomingRequest j = some inc) :
    (McpClient.processLine st psp (some j)).1.pending = st.pending ∧
    ∀ o ∈ (McpClient.processLine st psp (some j)).2, isResolveOut o = false := by
  by_cases hm : inc.method = "sampling/createMessage"
  · cases hcfg : st.samplingConfig with
    | none =>
      cases htx : st.stdinTx with
      | false =>
        simp [McpClient.processLine, hinc, hm, hcfg, htx, sendJsonrpcErrorSync, isResolveOut]
      | true =>
        simp [McpClient.processLine, hinc, hm, hcfg, htx, sendJsonrpcErrorSync, isResolveOut]
    | some cfg =>
      cases htx : st.stdinTx with
      | false =>
        simp [McpClient.processLine, hinc, hm, hcfg, htx, sendJsonrpcErrorSync, isResolveOut]
      | true =>
        cases hp : inc.params with
        | none =>
          simp [McpClient.processLine, hinc, hm, hcfg, htx, hp, sendJsonrpcErrorSync, isResolveOut]
        | some pv =>
          cases hpsp : psp pv with
          | ok p =>
            simp [McpClient.processLine, hinc, hm, hcfg, htx, hp, hpsp, isResolveOut]
          | error e =>
            simp [McpClient.processLine, hinc, hm, hcfg, htx, hp, hpsp,
              sendJsonrpcErrorSync, isResolveOut]
  · cases htx : st.stdinTx with
    | false =>
      simp [McpClient.processLine, hinc, hm, htx, sendJsonrpcErrorSync, isResolveOut]
    | true =>
      simp [McpClient.processLine, hinc, hm, htx, sendJsonrpcErrorSync, isResolveOut]

/-- C3: classification of an inbound line follows the stated order.
(1) A line that parses as a peer-initiated request — exactly the lines
carrying a string `method` and a present `id` (with the `jsonrpc` marker)
— is handled as a request and never routed to the pending table.
(2) A line that does not parse as a request but parses as a response is
handled as a response: routed to the pending table by id (resolving the
matching slot, or logged and discarded when the id is unknown).
(3) A line that parses as neither but is a notification is logged only,
leaving the state unchanged; (4) any other line is likewise logged and
discarded, as is a non-JSON line. -/
theorem mcp_C3 {α : Type} (st : ClientState) (psp : Json → Except String α) (j : Json) :
    ((parseIncomingRequest j).isSome = reqShaped j) ∧
    (∀ inc, parseIncomingRequest j = some inc →
      (McpClient.processLine st psp (some j)).1.pending = st.pending ∧
      ∀ o ∈ (McpClient.processLine st psp (some j)).2, isResolveOut o = false) ∧
    (parseIncomingRequest j = none → ∀ r, parseResponse j = some r →
      McpClient.processLine st psp (some j) =
        (if r.id ∈ st.pending then
          ({ st with pending := st.pending.erase r.id },
            [ReaderOutput.resolve r.id (responseOutcome r)])
        else (st, [ReaderOutput.log]))) ∧
    (parseIncomingRequest j = none → parseResponse j = none →
      McpClient.processLine st psp (some j) = (st, [ReaderOutput.log])) ∧
    (McpClient.processLine st psp none = (st, [ReaderOutput.log])) := by
  refine ⟨?_, ?_, ?_, ?_, rfl⟩
  · cases h1 : j.getStrField "jsonrpc" <;> cases h2 : j.getField "id" <;>
      cases h3 : j.getStrField "method" <;>
      simp [parseIncomingRequest, reqShaped, h1, h2, h3]
  · intro inc hinc
    exact processLine_request_frame st psp j inc hinc
  · intro hni r hr
    by_cases hp : r.id ∈ st.pending <;> simp [McpClient.processLine, hni, hr, hp]
  · intro hni hnr
    cases hn : parseNotification j <;> simp [McpClient.processLine, hni, hnr, hn]

/-- C3 (witness): the classification at a concrete response line (id 7,
unknown to a fresh client): it is response-shaped, not request-shaped, and
is logged and discarded. -/
theorem mcp_C3_witness :
    ((parseIncomingRequest demoRespJson).isSome = reqShaped demoRespJson) ∧
    McpClient.processLine (McpClient.new "s1" "server one")
      (fun _ => (Except.error "unused" : Except String Unit)) (some demoRespJson) =
      (McpClient.new "s1" "server one", [ReaderOutput.log]) := by
  have h := mcp_C3 (McpClient.new "s1" "server one")
    (fun _ => (Except.error "unused" : Except String Unit)) demoRespJson
  refine ⟨h.1, ?_⟩
  have h3 := h.2.2.1 rfl ⟨"2.0", 7, none, none⟩ rfl
  simpa [McpClient.new] using h3

/-- C2: for every reachable correlator state (pending ids all previously
allocated) and every event trace: (a) each slot is resolved at most once;
(b) a pending slot whose call completes — by a matching response, its
timeout, or a drain (cancellation, disconnect, or a transport-error
drain) — is resolved exactly once and is absent from the table ever
after; (c) a trace ending in a drain leaves the table empty; (d) if no
new request is sent and every pending call completes, the table size
returns to zero. -/
theorem mcp_C2 (s : CorrState) (tr : List CorrEvent) (i : Nat) (hinv : corrInv s) :
    resolveCount s tr i ≤ 1 ∧
    (i ∈ s.pending → (∃ e ∈ tr, completesFor e i) →
      resolveCount s tr i = 1 ∧ i ∉ (corrRun s tr).pending) ∧
    (corrRun s (tr ++ [CorrEvent.drain])).pending = ∅ ∧
    (CorrEvent.send ∉ tr → (∀ k ∈ s.pending, ∃ e ∈ tr, completesFor e k) →
      (corrRun s tr).pending = ∅) := by
  refine ⟨resolveCount_le_one tr s i hinv, ?_, ?_, ?_⟩
  · intro hin hc
    exact ⟨Nat.le_antisymm (resolveCount_le_one tr s i hinv)
        (pending_resolveCount_pos tr s i hin hc),
      slot_cleared tr s i hinv hin hc⟩
  · rw [corrRun_append]
    rfl
  · intro hns hall
    refine Finset.eq_empty_iff_forall_not_mem.mpr fun k hk => ?_
    have hks : k ∈ s.pending := pending_subset_of_noSend tr s hns hk
    exact slot_cleared tr s k hinv hks (hall k hks) hk

/-- C2 (witness): two calls in flight (ids 0 and 1, allocator at 2); id 0
is answered and id 1 times out: each slot resolves exactly once and the
table returns to empty. -/
theorem mcp_C2_witness :
    resolveCount ⟨2, {0, 1}⟩ [CorrEvent.response 0, CorrEvent.timeout 1] 0 = 1 ∧
    (corrRun ⟨2, {0, 1}⟩ [CorrEvent.response 0, CorrEvent.timeout 1]).pending = ∅ := by
  have h := mcp_C2 ⟨2, {0, 1}⟩ [CorrEvent.response 0, CorrEvent.timeout 1] 0
    (by intro k hk; fin_cases hk <;> decide)
  refine ⟨(h.2.1 (by decide) ⟨CorrEvent.response 0, by decide, Or.inl rfl⟩).1, ?_⟩
  refine h.2.2.2 (by decide) ?_
  intro k hk
  fin_cases hk
  · exact ⟨CorrEvent.response 0, by decide, Or.inl rfl⟩
  · exact ⟨CorrEvent.timeout 1, by decide, Or.inr (Or.inl rfl)⟩

/-- Beyond `buffer.length`, the fuel of the event loop is irrelevant: the
fuelled loop computes the source loop's fixpoint. -/
theorem processBufferLoopF_stable (classify : List Char → SseDataClass) :
    ∀ f1 : Nat, ∀ f2 : Nat, ∀ st : SseSt, st.buffer.length ≤ f1 → st.buffer.length ≤ f2 →
      processBufferLoopF classify f1 st = processBufferLoopF classify f2 st := by
  intro f1
  induction f1 with
  | zero =>
    intro f2 st h1 _
    have hnil : st.buffer = [] := List.length_eq_zero.mp (Nat.le_zero.mp h1)
    cases f2 with
    | zero => rfl
    | succ m => simp [processBufferLoopF, hnil, findBoundary, firstOccur]
  | succ n ih =>
    intro f2 st h1 h2
    cases f2 with
    | zero =>
      have hnil : st.buffer = [] := List.length_eq_zero.mp (Nat.le_zero.mp h2)
      simp [processBufferLoopF, hnil, findBoundary, firstOccur]
    | succ m =>
      simp only [processBufferLoopF]
      cases hfb : findBoundary st.buffer with
      | none => rfl
      | some ps =>
        obtain ⟨pos, skip⟩ := ps
        simp only [hfb]
        cases hpe : processEventBlock classify st.lastET st.result (st.buffer.take pos) with
        | error e => rfl
        | ok r =>
          obtain ⟨et2, res2⟩ := r
          have hb := findBoundary_bound st.buffer pos skip hfb
          refine ih m ⟨st.buffer.drop (pos + skip), et2, res2⟩ ?_ ?_ <;>
            simp only [List.length_drop] <;> omega

/-- A boundary-free buffer is returned unchanged by the event loop. -/
theorem processBufferLoop_noBoundary (classify : List Char → SseDataClass) (st : SseSt)
    (h : findBoundary st.buffer = none) : processBufferLoop classify st = .ok st := by
  unfold processBufferLoop
  cases hl : st.buffer.length with
  | zero => rfl
  | succ n => simp [processBufferLoopF, h]

/-- When the event loop returns without error (and its fuel covers the
buffer), the remaining buffer holds no complete event boundary. -/
theorem processBufferLoopF_ok_noBoundary (classify : List Char → SseDataClass) :
    ∀ fuel : Nat, ∀ st st2 : SseSt, st.buffer.length ≤ fuel →
      processBufferLoopF classify fuel st = .ok st2 → findBoundary st2.buffer = none := by
  intro fuel
  induction fuel with
  | zero =>
    intro st st2 hf h
    have hnil : st.buffer = [] := List.length_eq_zero.mp (Nat.le_zero.mp hf)
    simp only [processBufferLoopF, Except.ok.injEq] at h
    subst h
    simp [hnil, findBoundary, firstOccur]
  | succ n ih =>
    intro st st2 hf h
    simp only [processBufferLoopF] at h
    cases hfb : findBoundary st.buffer with
    | none =>
      rw [hfb] at h
      simp only [Except.ok.injEq] at h
      subst h
      exact hfb
    | some ps =>
      obtain ⟨pos, skip⟩ := ps
      simp only [hfb] at h
      cases hpe : processEventBlock classify st.lastET st.result (st.buffer.take pos) with
      | error e => simp only [hpe] at h; exact absurd h (by simp)
      | ok r =>
        obtain ⟨et2, res2⟩ := r
        simp only [hpe] at h
        have hb := findBoundary_bound st.buffer pos skip hfb
        refine ih ⟨st.buffer.drop (pos + skip), et2, res2⟩ st2 ?_ h
        simp only [List.length_drop]
        omega

/-- Wrapper form of the previous lemma. -/
theorem processBufferLoop_ok_noBoundary (classify : List Char → SseDataClass)
    (st st2 : SseSt) (h : processBufferLoop classify st = .ok st2) :
    findBoundary st2.buffer = none :=
  processBufferLoopF_ok_noBoundary classify st.buffer.length st st2 (Nat.le_refl _) h

/-- Splitting a boundary-free first chunk off a delivery does not change
the parse: the first chunk is buffered whole, and the loop then sees the
same buffer as in the merged delivery. -/
theorem runChunks_split (classify : List Char → SseDataClass) (c1 c2 : List Char)
    (h : findBoundary c1 = none) :
    runChunks classify ⟨[], none, none⟩ [c1, c2] =
      runChunks classify ⟨[], none, none⟩ [c1 ++ c2] := by
  have h1 : stepChunk classify ⟨[], none, none⟩ c1 = .ok ⟨c1, none, none⟩ := by
    unfold stepChunk
    simp only [List.nil_append]
    exact processBufferLoop_noBoundary classify ⟨c1, none, none⟩ h
  have h2 : stepChunk classify ⟨c1, none, none⟩ c2 =
      stepChunk classify ⟨[], none, none⟩ (c1 ++ c2) := by
    unfold stepChunk
    simp
  simp only [runChunks, h1, h2, Option.isSome_none, Bool.false_and, Bool.false_eq_true,
    if_false]

/-- An empty trailing chunk does not change the parse: it adds nothing to
the buffer, and the already-drained buffer holds no further boundary. -/
theorem runChunks_empty_tail (classify : List Char → SseDataClass) (st : SseSt)
    (c : List Char) :
    runChunks classify st [c, []] = runChunks classify st [c] := by
  simp only [runChunks]
  cases hs : stepChunk classify st c with
  | error e => rfl
  | ok st2 =>
    by_cases hcond : (st2.result.isSome && (trimCh st2.buffer).isEmpty) = true
    · simp [hcond]
    · have hnb : findBoundary st2.buffer = none :=
        processBufferLoop_ok_noBoundary classify ⟨st.buffer ++ c, st.lastET, st.result⟩ st2 hs
      have hstep : stepChunk classify st2 [] = .ok st2 := by
        unfold stepChunk
        simp only [List.append_nil]
        exact processBufferLoop_noBoundary classify st2 hnb
      simp [hcond, runChunks, hstep]

/-- C6 (counterexample): the same byte sequence — a `data: ok1` event
followed by an `event: error` block — parses differently depending on the
chunking.  Delivered as one chunk, the error block terminates the parse
with an error; delivered split at the first event boundary, the parser
returns early after the first chunk (result captured, buffer empty,
http_client.rs lines 227-230) and reports success, never seeing the error
block.  The third conjunct checks the two chunkings carry the same bytes. -/
theorem mcp_C6_counterexample :
    parseSseChunks classifyDemo ["data: ok1\n\n".data, "event: error\ndata: boom\n\n".data] =
      Except.ok (Json.str "v1") ∧
    parseSseChunks classifyDemo ["data: ok1\n\nevent: error\ndata: boom\n\n".data] =
      Except.error ("SSE error event: boom".data) ∧
    "data: ok1\n\n".data ++ "event: error\ndata: boom\n\n".data =
      "data: ok1\n\nevent: error\ndata: boom\n\n".data := by
  refine ⟨by decide, by decide, by decide⟩

/-- C6 (amended): for the spec's single `event: message` block carrying a
JSON-RPC result, the two-chunk delivery split at ANY position parses
identically to the single-chunk delivery, whatever the serde layer does —
because no proper prefix of a single event block completes an event
boundary.  (For general multi-event sequences the equality can fail: once
a result is captured with an empty buffer the parser returns early and
ignores the remaining chunks.) -/
theorem mcp_C6_amended (classify : List Char → SseDataClass) (i : Nat)
    (hi : i ≤ demoSse.length) :
    parseSseChunks classify [demoSse.take i, demoSse.drop i] =
      parseSseChunks classify [demoSse] := by
  rcases Nat.lt_or_ge i demoSse.length with hlt | hge
  · have hall : ∀ k < demoSse.length, findBoundary (demoSse.take k) = none := by decide
    unfold parseSseChunks
    rw [runChunks_split classify (demoSse.take i) (demoSse.drop i) (hall i hlt),
      List.take_append_drop]
  · have hieq : i = demoSse.length := Nat.le_antisymm hi hge
    subst hieq
    rw [List.take_length, List.drop_length]
    unfold parseSseChunks
    rw [runChunks_empty_tail]

/-- C6 (witness): the amended statement at the concrete classifier and the
split position 10 (inside `event: message`). -/
theorem mcp_C6_amended_witness :
    parseSseChunks classifyDemo [demoSse.take 10, demoSse.drop 10] =
      parseSseChunks classifyDemo [demoSse] :=
  mcp_C6_amended classifyDemo 10 (by decide)

/-- A line bearing the `event:` prefix cannot also bear the `data:`
prefix. -/
theorem eventPrefix_excl (t : List Char) (h : eventPrefix.isPrefixOf t = true) :
    dataPrefix.isPrefixOf t = false := by
  cases t with
  | nil => simp [eventPrefix, List.isPrefixOf] at h
  | cons c cs =>
    simp only [eventPrefix, List.isPrefixOf, Bool.and_eq_true, beq_iff_eq] at h
    obtain ⟨h1, _⟩ := h
    cases h1
    simp [dataPrefix, List.isPrefixOf]

/-- One line of the event-block loop, characterized by the spec-side
payload readers: an `event:` line overwrites the event type, a `data:`
line appends its payload, every other line is ignored. -/
theorem sseFold_spec (ls : List (List Char)) (e0 : Option (List Char))
    (acc : List (List Char)) :
    ls.foldl sseLineStep (e0, acc) =
      ((ls.filterMap eventPayloadSpec).foldl (fun _ b => some b) e0,
        acc ++ ls.filterMap dataPayloadSpec) := by
  induction ls generalizing e0 acc with
  | nil => simp
  | cons l ls ih =>
    cases hse : stripPrefixCh eventPrefix (trimStartCh l) with
    | some et =>
      have hd : stripPrefixCh dataPrefix (trimStartCh l) = none := by
        unfold stripPrefixCh at hse ⊢
        by_cases hp : eventPrefix.isPrefixOf (trimStartCh l) = true
        · simp [eventPrefix_excl (trimStartCh l) hp]
        · simp [hp] at hse
      have he1 : eventPayloadSpec l = some (trimCh et) := by
        simp [eventPayloadSpec, hse]
      have hd1 : dataPayloadSpec l = none := by
        simp [dataPayloadSpec, hd]
      simp [List.foldl_cons, sseLineStep, hse, List.filterMap_cons, he1, hd1, ih]
    | none =>
      cases hsd : stripPrefixCh dataPrefix (trimStartCh l) with
      | some d =>
        have he1 : eventPayloadSpec l = none := by simp [eventPayloadSpec, hse]
        have hd1 : dataPayloadSpec l = some (dropOneSpace d) := by
          simp [dataPayloadSpec, hsd]
        simp [List.foldl_cons, sseLineStep, hse, hsd, List.filterMap_cons, he1, hd1, ih]
      | none =>
        have he1 : eventPayloadSpec l = none := by simp [eventPayloadSpec, hse]
        have hd1 : dataPayloadSpec l = none := by simp [dataPayloadSpec, hsd]
        simp [List.foldl_cons, sseLineStep, hse, hsd, List.filterMap_cons, he1, hd1, ih]

/-- Overwriting fold: the final value is the last list element, or the
seed when the list is empty. -/
theorem foldl_overwrite {β : Type} (l : List β) (e0 : Option β) :
    l.foldl (fun _ b => some b) e0 = (l.getLast?).or e0 := by
  induction l generalizing e0 with
  | nil => simp
  | cons x xs ih =>
    cases xs with
    | nil => simp
    | cons y ys =>
      rw [List.foldl_cons, ih]
      rw [List.getLast?_cons_cons]
      obtain ⟨z, hz⟩ := Option.isSome_iff_exists.mp
        (List.getLast?_isSome.mpr (List.cons_ne_nil y ys))
      rw [hz]
      rfl

/-- The event-block parser in specification form: the event type is the
last `event:` value, the data is the newline-join of the `data:`
payloads (absent when there are none). -/
theorem parseSseLinesFull_spec (ls : List (List Char)) :
    parseSseLinesFull ls =
      (lastEventTypeSpec ls,
        if (sseDataSpec ls).isEmpty then none else some (joinNl (sseDataSpec ls))) := by
  unfold parseSseLinesFull lastEventTypeSpec sseDataSpec
  rw [sseFold_spec ls none []]
  rw [foldl_overwrite]
  simp

/-- A line with neither payload leaves the line-loop state unchanged. -/
theorem sseLineStep_id (st : Option (List Char) × List (List Char)) (l : List Char)
    (he : eventPayloadSpec l = none) (hd : dataPayloadSpec l = none) :
    sseLineStep st l = st := by
  unfold eventPayloadSpec at he
  unfold dataPayloadSpec at hd
  cases hse : stripPrefixCh eventPrefix (trimStartCh l) with
  | some et => rw [hse] at he; simp at he
  | none =>
    cases hsd : stripPrefixCh dataPrefix (trimStartCh l) with
    | some d => rw [hsd] at hd; simp at hd
    | none => simp [sseLineStep, hse, hsd]

/-- Comment, `id:` and `retry:` lines carry neither payload. -/
theorem sseIgnorable_payloads (l : List Char) (h : sseIgnorable l = true) :
    eventPayloadSpec l = none ∧ dataPayloadSpec l = none := by
  cases ht : trimStartCh l with
  | nil =>
    unfold sseIgnorable at h
    rw [ht] at h
    simp [List.isPrefixOf] at h
  | cons c cs =>
    unfold sseIgnorable at h
    rw [ht] at h
    have hc : c = ':' ∨ c = 'i' ∨ c = 'r' := by
      simp only [Bool.or_eq_true] at h
      rcases h with (h | h) | h
      · simp only [List.isPrefixOf, Bool.and_eq_true, beq_iff_eq] at h
        exact Or.inl h.1.symm
      · simp only [List.isPrefixOf, Bool.and_eq_true, beq_iff_eq] at h
        exact Or.inr (Or.inl h.1.symm)
      · simp only [List.isPrefixOf, Bool.and_eq_true, beq_iff_eq] at h
        exact Or.inr (Or.inr h.1.symm)
    constructor
    · unfold eventPayloadSpec stripPrefixCh
      rw [ht]
      rcases hc with rfl | rfl | rfl <;> simp [eventPrefix, List.isPrefixOf]
    · unfold dataPayloadSpec stripPrefixCh
      rw [ht]
      rcases hc with rfl | rfl | rfl <;> simp [dataPrefix, List.isPrefixOf]

/-- An error-typed block carrying a data payload is terminal: whatever the
surrounding state and serde layer, processing it returns the
`SSE error event` failure, which `parse_sse_response` propagates as the
call's result. -/
theorem processEventBlock_error (classify : List Char → SseDataClass)
    (lastET : Option (List Char)) (res : Option Json) (block : List Char) (d : List Char)
    (he : (parseSseEventFull block).1 = some ("error".data))
    (hd : (parseSseEventFull block).2 = some d) :
    processEventBlock classify lastET res block =
      Except.error ("SSE error event: ".data ++ d) := by
  simp [processEventBlock, he, hd]

/-- C7 (counterexample): a stream whose second event block is typed
`event: error` but carries no `data:` line does NOT cause a terminal
error: the parse returns the previously captured result.  The final
conjunct exhibits the block structure of the stream. -/
theorem mcp_C7_counterexample :
    (parseSseEventFull ("event: error".data)).1 = some ("error".data) ∧
    parseSseChunks classifyDemo ["data: ok1\n\nevent: error\n\n".data] =
      Except.ok (Json.str "v1") ∧
    "data: ok1\n\nevent: error\n\n".data =
      "data: ok1".data ++ ['\n', '\n'] ++ "event: error".data ++ ['\n', '\n'] := by
  refine ⟨by decide, by decide, by decide⟩

/-- C7 (amended): for every event block, `parse_sse_event_full` extracts
the (last) `event:` field value and the newline-join of the `data:`
payloads, one leading space after each `data:` colon stripped; comment,
`id:` and `retry:` lines are ignored (inserting one anywhere changes
nothing); and any block whose event type is `error` AND which carries at
least one data line makes the enclosing stream parse terminal (a
data-less `event: error` block is not itself terminal — it only marks the
pending event type). -/
theorem mcp_C7_amended :
    (∀ block : List Char,
      parseSseEventFull block =
        (lastEventTypeSpec (rustLines block),
          if (sseDataSpec (rustLines block)).isEmpty then none
          else some (joinNl (sseDataSpec (rustLines block))))) ∧
    (∀ pre : List (List Char), ∀ l : List Char, ∀ post : List (List Char),
      sseIgnorable l = true →
      parseSseLinesFull (pre ++ l :: post) = parseSseLinesFull (pre ++ post)) ∧
    (∀ classify : List Char → SseDataClass, ∀ lastET : Option (List Char),
      ∀ res : Option Json, ∀ block d : List Char,
      (parseSseEventFull block).1 = some ("error".data) →
      (parseSseEventFull block).2 = some d →
      processEventBlock classify lastET res block =
        Except.error ("SSE error event: ".data ++ d)) := by
  refine ⟨?_, ?_, ?_⟩
  · intro block
    exact parseSseLinesFull_spec (rustLines block)
  · intro pre l post h
    obtain ⟨he, hd⟩ := sseIgnorable_payloads l h
    unfold parseSseLinesFull
    rw [List.foldl_append, List.foldl_append, List.foldl_cons,
      sseLineStep_id (List.foldl sseLineStep (none, []) pre) l he hd]
  · exact processEventBlock_error

/-- C7 (witness): the amended statement at a concrete block mixing event,
data, comment and id lines, a concrete comment insertion, and a concrete
error-typed data-carrying block. -/
theorem mcp_C7_amended_witness :
    parseSseEventFull ("event: error\ndata: boom\ndata: 2\n: comment\nid: 5".data) =
      (some ("error".data), some ("boom\n2".data)) ∧
    parseSseLinesFull ["data: a".data, ": c".data, "data: b".data] =
      parseSseLinesFull ["data: a".data, "data: b".data] ∧
    processEventBlock classifyDemo none none ("event: error\ndata: boom".data) =
      Except.error ("SSE error event: boom".data) := by
  have h := mcp_C7_amended
  refine ⟨?_, ?_, ?_⟩
  · rw [h.1 ("event: error\ndata: boom\ndata: 2\n: comment\nid: 5".data)]
    decide
  · exact h.2.1 ["data: a".data] (": c".data) ["data: b".data] (by decide)
  · exact h.2.2 classifyDemo none none ("event: error\ndata: boom".data) ("boom".data)
      (by decide) (by decide)
